import Mathlib

/-!
Shallow embedding of `vms/wasmvm/service.go` (package wasmvm): the API service
of the wasm VM — argument coercion (`ArgAPI.toFnArg`), request validation
(`InvokeArgs.validate`), and the three service operations `Invoke`,
`CreateContract`, `GetTx`.

Modelling conventions:
* Go machine integers are `Int`; narrowing conversions wrap explicitly
  (`wrap32`, `wrap64`).
* Go `float32`/`float64` wire values are modelled by the rational number the
  float denotes; Go's float-to-int conversion truncates toward zero
  (`truncRat`).  For results outside the destination range the Go language
  leaves the conversion implementation-defined; the spec chooses wrapping
  narrowing semantics, which is what `wrap32`/`wrap64` apply.
* The external capabilities the service consumes (`keyFactory.ToPrivateKey`,
  `vm.newInvokeTx`, `vm.newCreateContractTx`, `vm.getTx`) are opaque and live
  outside this file's source; they are parameters gathered in `Env`.
* The mutable VM state touched by the service is `vm.mempool` plus the
  block-ready notification channel; `VMState` records the mempool and a
  counter of `NotifyBlockReady` signals.  Logging (`Ctx.Log.Debug`) has no
  observable effect and is not modelled.
-/

namespace Wasmvm

/-- Go `int32(x)` narrowing of a (possibly wider) integer: two's-complement
wrap into `[-2^31, 2^31)`. -/
def wrap32 (v : Int) : Int := (v + 2 ^ 31) % 2 ^ 32 - 2 ^ 31

/-- Go `int64(x)` narrowing: two's-complement wrap into `[-2^63, 2^63)`. -/
def wrap64 (v : Int) : Int := (v + 2 ^ 63) % 2 ^ 64 - 2 ^ 63

/-- Go float-to-integer conversion: truncation toward zero of the rational
value the float denotes. -/
def truncRat (q : Rat) : Int := q.num.tdiv (q.den : Int)

/-- Go's per-character Unicode simple lowercase mapping (what
`strings.ToLower` applies to each rune), modelled by the ASCII case mapping
extended with U+0130 (İ → i).  U+0130 is the only character outside ASCII
whose simple lowercase is among the characters of `"int32"`/`"int64"` — the
only strings `toFnArg` ever compares the lowered tag against (the other
character Go lowers into ASCII, U+212A KELVIN SIGN → k, cannot occur in
them) — so every other character is left unchanged, which never changes
whether the lowered tag equals `"int32"` or `"int64"`. -/
def goToLower (c : Char) : Char :=
  if c = 'İ' then 'i' else c.toLower

/-- Go `strings.ToLower`: the Unicode simple lowercase mapping applied to
each character. -/
def strToLower (s : String) : String := ⟨s.data.map goToLower⟩

/-- Equality of `Except` values is decidable when both components are. -/
instance {ε α : Type} [DecidableEq ε] [DecidableEq α] :
    DecidableEq (Except ε α) := fun a b =>
  match a, b with
  | .error e, .error f =>
    if h : e = f then .isTrue (by rw [h]) else .isFalse (by simp [h])
  | .ok x, .ok y =>
    if h : x = y then .isTrue (by rw [h]) else .isFalse (by simp [h])
  | .error _, .ok _ => .isFalse (by simp)
  | .ok _, .error _ => .isFalse (by simp)

/-- The dynamic wire value held in `ArgAPI.Value` (Go `interface{}`): one of
the four numeric wire types, or any other value (carried as its `%v`
rendering, which is all the code ever looks at for non-numeric values). -/
inductive RawValue
  | vInt32 (v : Int)
  | vInt64 (v : Int)
  | vFloat32 (q : Rat)
  | vFloat64 (q : Rat)
  | vOther (s : String)
  deriving DecidableEq, Repr

/-- The typed function argument produced by coercion: Go `int32` or `int64`. -/
inductive FnArg
  | int32 (v : Int)
  | int64 (v : Int)
  deriving DecidableEq, Repr

/-- Go struct `ArgAPI` with fields `Type string` and `Value interface{}`
(`Type` is a Lean keyword, hence the field names `ty`/`value`). -/
structure ArgAPI where
  ty : String
  value : RawValue
  deriving DecidableEq, Repr

/-- Go `(arg *ArgAPI) toFnArg() (interface{}, error)`: switch on
`strings.ToLower(arg.Type)`; for `"int32"`/`"int64"` try the four numeric
wire types in order and convert, otherwise fail. -/
def ArgAPI.toFnArg (arg : ArgAPI) : Except String FnArg :=
  if strToLower arg.ty = "int32" then
    match arg.value with
    | .vInt32 v => .ok (.int32 v)
    | .vInt64 v => .ok (.int32 (wrap32 v))
    | .vFloat32 q => .ok (.int32 (wrap32 (truncRat q)))
    | .vFloat64 q => .ok (.int32 (wrap32 (truncRat q)))
    | .vOther s => .error ("value '" ++ s ++ "' is not convertible to int32")
  else if strToLower arg.ty = "int64" then
    match arg.value with
    | .vInt32 v => .ok (.int64 v)
    | .vInt64 v => .ok (.int64 v)
    | .vFloat32 q => .ok (.int64 (wrap64 (truncRat q)))
    | .vFloat64 q => .ok (.int64 (wrap64 (truncRat q)))
    | .vOther s => .error ("value '" ++ s ++ "' is not convertible to int64")
  else .error "arg type must be one of: int32, int64"

/-- Go `ids.ID`: a 32-byte identifier. -/
structure ID where
  bytes : List Nat
  deriving DecidableEq, Repr

/-- Go `ids.Empty`: the all-zero sentinel identifier. -/
def ID.empty : ID := ⟨List.replicate 32 0⟩

/-- Go struct `InvokeArgs` (CB58 fields carried as their byte sequences). -/
structure InvokeArgs where
  ContractID : ID
  Function : String
  PrivateKey : List Nat
  Args : List ArgAPI
  ByteArgs : List Nat
  deriving Repr

/-- Go `(args *InvokeArgs) validate() error`. -/
def InvokeArgs.validate (args : InvokeArgs) : Except String Unit :=
  if args.ContractID = ID.empty then .error "contractID not specified"
  else if args.Function = "" then .error "function not specified"
  else .ok ()

/-- Transaction identifiers (`ids.ID` of a tx), abstracted to `Nat`. -/
abbrev TxID := Nat

/-- A transaction, opaque to the service beyond its `ID()`. -/
structure Tx where
  id : TxID
  deriving DecidableEq, Repr

/-- A parsed SECP256K1R private key (opaque key material). -/
structure PrivKey where
  bytes : List Nat
  deriving DecidableEq, Repr

/-- The stored representation `GetTx` returns (Go `txReturnValue`), opaque. -/
structure TxRecord where
  tx : Tx
  deriving DecidableEq, Repr

/-- The mutable VM state the service touches: `vm.mempool` and the number of
`vm.NotifyBlockReady()` signals emitted so far. -/
structure VMState where
  mempool : List Tx
  notifyCount : Nat
  deriving DecidableEq, Repr

/-- The external capabilities consumed by the service, injected as opaque
functions: `keyFactory.ToPrivateKey`, `vm.newInvokeTx`,
`vm.newCreateContractTx`, and `vm.getTx` over `vm.DB`. -/
structure Env where
  toPrivateKey : List Nat → Except String PrivKey
  newInvokeTx : ID → String → List FnArg → List Nat → PrivKey → Except String Tx
  newCreateContractTx : List Nat → PrivKey → Except String Tx
  getTx : TxID → Except String TxRecord

/-- The service-level errors, one constructor per distinct `fmt.Errorf`
wrapper in `Invoke`/`CreateContract`.  Each carries the wrapped message text;
`argumentError` additionally carries the offending `ArgAPI` interpolated by
`%+v` (Go: `couldn't parse arg '%+v': %s`). -/
inductive SvcErr
  | validationError (msg : String)
  | argumentError (arg : ArgAPI) (msg : String)
  | keyError (msg : String)
  | buildError (msg : String)
  deriving DecidableEq, Repr

/-- The argument-coercion loop of `Invoke`: coerce each element of
`args.Args` in order, returning on the first failure with the
`couldn't parse arg` wrapper. -/
def coerceArgs : List ArgAPI → Except SvcErr (List FnArg)
  | [] => .ok []
  | arg :: rest =>
    match arg.toFnArg with
    | .error e => .error (.argumentError arg e)
    | .ok v =>
      match coerceArgs rest with
      | .error e => .error e
      | .ok vs => .ok (v :: vs)

/-- Go `(s *Service) Invoke`: validate, coerce arguments, parse the signing
key, build the tx; on success append it to `vm.mempool`, signal
`NotifyBlockReady`, and return `tx.ID()`. -/
def Service.Invoke (env : Env) (st : VMState) (args : InvokeArgs) :
    Except SvcErr TxID × VMState :=
  match args.validate with
  | .error e =>
    (.error (.validationError ("arguments failed validation: " ++ e)), st)
  | .ok _ =>
    match coerceArgs args.Args with
    | .error e => (.error e, st)
    | .ok fnArgs =>
      match env.toPrivateKey args.PrivateKey with
      | .error e =>
        (.error (.keyError
          ("couldn't parse 'privateKey' to a SECP256K1R private key: " ++ e)), st)
      | .ok key =>
        match env.newInvokeTx args.ContractID args.Function fnArgs
            args.ByteArgs key with
        | .error e => (.error (.buildError ("couldn't create tx: " ++ e)), st)
        | .ok tx =>
          (.ok tx.id,
           { mempool := st.mempool ++ [tx], notifyCount := st.notifyCount + 1 })

/-- Go struct `CreateContractArgs` (CB58 fields as byte sequences). -/
structure CreateContractArgs where
  Contract : List Nat
  PrivateKey : List Nat
  deriving Repr

/-- Go `(s *Service) CreateContract`: parse the signing key, build the
contract-creation tx; on success append it to `vm.mempool`, signal
`NotifyBlockReady`, and return `tx.ID()`. -/
def Service.CreateContract (env : Env) (st : VMState)
    (args : CreateContractArgs) : Except SvcErr TxID × VMState :=
  match env.toPrivateKey args.PrivateKey with
  | .error e =>
    (.error (.keyError
      ("couldn't parse 'privateKey' to a SECP256K1R private key: " ++ e)), st)
  | .ok key =>
    match env.newCreateContractTx args.Contract key with
    | .error e => (.error (.buildError ("couldn't create tx: " ++ e)), st)
    | .ok tx =>
      (.ok tx.id,
       { mempool := st.mempool ++ [tx], notifyCount := st.notifyCount + 1 })

/-- Go struct `GetTxArgs`. -/
structure GetTxArgs where
  id : TxID
  deriving Repr

/-- Go `(s *Service) GetTx`: look the tx up in the external store; any lookup
failure is surfaced as `couldn't find tx with ID <id>`.  The mempool is not
touched. -/
def Service.GetTx (env : Env) (st : VMState) (args : GetTxArgs) :
    Except String TxRecord × VMState :=
  match env.getTx args.id with
  | .error _ => (.error ("couldn't find tx with ID " ++ toString args.id), st)
  | .ok tx => (.ok tx, st)

/-- Modelled from the spec: `vm.newCreateContractTx` (vms/wasmvm, not under
the provided sources) constructs and signs the contract-creation
transaction; per the spec its only structural invariant is non-empty
contract bytes, so the modelled builder rejects an empty byte sequence and
otherwise succeeds with some transaction. -/
def newCreateContractTxSpec (contractBytes : List Nat) (key : PrivKey) :
    Except String Tx :=
  if contractBytes = [] then .error "contract is empty"
  else .ok ⟨contractBytes.length + key.bytes.length⟩

/-- A pending submission: one `Invoke` or `CreateContract` call. -/
inductive Call
  | invokeCall (args : InvokeArgs)
  | createCall (args : CreateContractArgs)

/-- Run one submission call against the current state. -/
def runCall (env : Env) (st : VMState) : Call → Except SvcErr TxID × VMState
  | .invokeCall args => Service.Invoke env st args
  | .createCall args => Service.CreateContract env st args

/-- Modelled from the spec: the RPC handler wrapping, produced by
`vm.SnowmanVM.NewHandler` (vms/components/core and api, not under the
provided sources), serializes service calls on one chain under the chain
lock, so concurrent `Invoke`/`CreateContract` calls execute as some
sequential interleaving — which `runSerialized` folds over an arbitrary
schedule order. -/
def runSerialized (env : Env) (st : VMState) : List Call → VMState
  | [] => st
  | c :: rest => runSerialized env (runCall env st c).2 rest

/-- Whether a call succeeds; the outcome of a call does not depend on the
state it runs against, so it is evaluated at the empty state. -/
def callOk (env : Env) (c : Call) : Bool :=
  match (runCall env ⟨[], 0⟩ c).1 with
  | .ok _ => true
  | .error _ => false

/-! Concrete test fixtures used by witnesses and counterexamples. -/

/-- The empty initial VM state. -/
def st0 : VMState := ⟨[], 0⟩

/-- A non-zero 32-byte contract identifier. -/
def cid1 : ID := ⟨1 :: List.replicate 31 0⟩

/-- A test environment where every external capability succeeds. -/
def envOk : Env where
  toPrivateKey b := .ok ⟨b⟩
  newInvokeTx _ _ _ _ _ := .ok ⟨7⟩
  newCreateContractTx b k := .ok ⟨b.length + k.bytes.length⟩
  getTx n := if n = 5 then .ok ⟨⟨5⟩⟩ else .error "not in db"

/-- A test environment whose key parser rejects everything. -/
def envBadKey : Env :=
  { envOk with toPrivateKey := fun _ => .error "bad key bytes" }

/-- A well-formed invocation request. -/
def req0 : InvokeArgs where
  ContractID := cid1
  Function := "f"
  PrivateKey := [1, 2]
  Args := [⟨"int32", .vInt32 7⟩]
  ByteArgs := []

/-- The rational value 39/10, standing for the float64 wire value `3.9`
(the float nearest to 3.9 also truncates toward zero to 3, so the choice of
representative does not affect the coercion result). -/
def q39 : Rat := ⟨39, 10, by norm_num, by norm_num⟩

/-! ## Helper lemmas -/

theorem coerceArgs_error_shape : ∀ {l : List ArgAPI} {e : SvcErr},
    coerceArgs l = .error e → ∃ a m, e = .argumentError a m := by
  intro l
  induction l with
  | nil => intro e h; simp [coerceArgs] at h
  | cons a rest ih =>
    intro e h
    simp only [coerceArgs] at h
    rcases ha : a.toFnArg with m | v
    · rw [ha] at h
      simp at h
      exact ⟨a, m, h.symm⟩
    · rw [ha] at h
      rcases hr : coerceArgs rest with e' | vs
      · rw [hr] at h
        simp at h
        exact h ▸ ih hr
      · rw [hr] at h
        simp at h

theorem coerceArgs_first_error {pre : List ArgAPI} {a : ArgAPI}
    (suf : List ArgAPI) {e : String}
    (hpre : ∀ x ∈ pre, ∃ f, x.toFnArg = .ok f) (ha : a.toFnArg = .error e) :
    coerceArgs (pre ++ a :: suf) = .error (.argumentError a e) := by
  induction pre with
  | nil => simp [coerceArgs, ha]
  | cons p rest ih =>
    obtain ⟨f, hf⟩ := hpre p (by simp)
    have hrest := ih (fun x hx => hpre x (by simp [hx]))
    simp [coerceArgs, hf, hrest]

theorem Invoke_error_snd {env : Env} {st : VMState} {args : InvokeArgs}
    {e : SvcErr} (h : (Service.Invoke env st args).1 = .error e) :
    (Service.Invoke env st args).2 = st := by
  unfold Service.Invoke at *
  rcases hv : args.validate with ev | u
  · simp [hv]
  · simp only [hv] at h ⊢
    rcases hc : coerceArgs args.Args with ec | fnArgs
    · simp [hc]
    · simp only [hc] at h ⊢
      rcases hk : env.toPrivateKey args.PrivateKey with ek | key
      · simp [hk]
      · simp only [hk] at h ⊢
        rcases ht : env.newInvokeTx args.ContractID args.Function fnArgs
            args.ByteArgs key with et | tx
        · simp [ht]
        · simp [ht] at h

theorem CreateContract_error_snd {env : Env} {st : VMState}
    {args : CreateContractArgs} {e : SvcErr}
    (h : (Service.CreateContract env st args).1 = .error e) :
    (Service.CreateContract env st args).2 = st := by
  unfold Service.CreateContract at *
  rcases hk : env.toPrivateKey args.PrivateKey with ek | key
  · simp [hk]
  · simp only [hk] at h ⊢
    rcases ht : env.newCreateContractTx args.Contract key with et | tx
    · simp [ht]
    · simp [ht] at h

theorem Invoke_ok_spec {env : Env} {st : VMState} {args : InvokeArgs}
    {t : TxID} (h : (Service.Invoke env st args).1 = .ok t) :
    ∃ tx : Tx, t = tx.id ∧
      (Service.Invoke env st args).2.mempool = st.mempool ++ [tx] ∧
      (Service.Invoke env st args).2.notifyCount = st.notifyCount + 1 := by
  unfold Service.Invoke at *
  rcases hv : args.validate with ev | u
  · simp [hv] at h
  · simp only [hv] at h ⊢
    rcases hc : coerceArgs args.Args with ec | fnArgs
    · simp [hc] at h
    · simp only [hc] at h ⊢
      rcases hk : env.toPrivateKey args.PrivateKey with ek | key
      · simp [hk] at h
      · simp only [hk] at h ⊢
        rcases ht : env.newInvokeTx args.ContractID args.Function fnArgs
            args.ByteArgs key with et | tx
        · simp [ht] at h
        · simp only [ht] at h ⊢
          refine ⟨tx, ?_, by simp, by simp⟩
          simpa using h.symm

theorem CreateContract_ok_spec {env : Env} {st : VMState}
    {args : CreateContractArgs} {t : TxID}
    (h : (Service.CreateContract env st args).1 = .ok t) :
    ∃ tx : Tx, t = tx.id ∧
      (Service.CreateContract env st args).2.mempool = st.mempool ++ [tx] ∧
      (Service.CreateContract env st args).2.notifyCount = st.notifyCount + 1 := by
  unfold Service.CreateContract at *
  rcases hk : env.toPrivateKey args.PrivateKey with ek | key
  · simp [hk] at h
  · simp only [hk] at h ⊢
    rcases ht : env.newCreateContractTx args.Contract key with et | tx
    · simp [ht] at h
    · simp only [ht] at h ⊢
      refine ⟨tx, ?_, by simp, by simp⟩
      simpa using h.symm

theorem Invoke_fst_state_indep (env : Env) (st st' : VMState)
    (args : InvokeArgs) :
    (Service.Invoke env st args).1 = (Service.Invoke env st' args).1 := by
  unfold Service.Invoke
  rcases hv : args.validate with ev | u
  · simp [hv]
  · simp only [hv]
    rcases hc : coerceArgs args.Args with ec | fnArgs
    · simp [hc]
    · simp only [hc]
      rcases hk : env.toPrivateKey args.PrivateKey with ek | key
      · simp [hk]
      · simp only [hk]
        rcases ht : env.newInvokeTx args.ContractID args.Function fnArgs
            args.ByteArgs key with et | tx
        · simp [ht]
        · simp [ht]

theorem CreateContract_fst_state_indep (env : Env) (st st' : VMState)
    (args : CreateContractArgs) :
    (Service.CreateContract env st args).1 =
      (Service.CreateContract env st' args).1 := by
  unfold Service.CreateContract
  rcases hk : env.toPrivateKey args.PrivateKey with ek | key
  · simp [hk]
  · simp only [hk]
    rcases ht : env.newCreateContractTx args.Contract key with et | tx
    · simp [ht]
    · simp [ht]

theorem runCall_fst_state_indep (env : Env) (c : Call) (st st' : VMState) :
    (runCall env st c).1 = (runCall env st' c).1 := by
  rcases c with args | args
  · exact Invoke_fst_state_indep env st st' args
  · exact CreateContract_fst_state_indep env st st' args

theorem runCall_error_snd {env : Env} {st : VMState} {c : Call} {e : SvcErr}
    (h : (runCall env st c).1 = .error e) : (runCall env st c).2 = st := by
  rcases c with args | args
  · exact Invoke_error_snd h
  · exact CreateContract_error_snd h

theorem runCall_ok_snd {env : Env} {st : VMState} {c : Call} {t : TxID}
    (h : (runCall env st c).1 = .ok t) :
    ∃ tx : Tx, (runCall env st c).2.mempool = st.mempool ++ [tx] ∧
      (runCall env st c).2.notifyCount = st.notifyCount + 1 := by
  rcases c with args | args
  · obtain ⟨tx, _, h1, h2⟩ := Invoke_ok_spec h
    exact ⟨tx, h1, h2⟩
  · obtain ⟨tx, _, h1, h2⟩ := CreateContract_ok_spec h
    exact ⟨tx, h1, h2⟩

/-! ## Claim theorems -/

/-- C1: with the tag matched case-insensitively, `toFnArg` with tag `int32`
passes an `int32` raw value through unchanged and converts `int64`,
`float32`, `float64` raw values by wrapping narrowing (floats truncated
toward zero first); with tag `int64` it symmetrically converts all four
numeric wire types; in particular coercing the float64 value 3.9 to `int32`
yields 3 (truncation, not rounding). -/
theorem toFnArg_numeric_conversions (tag : String) (v : Int) (q : Rat) :
    (strToLower tag = "int32" →
      ArgAPI.toFnArg ⟨tag, .vInt32 v⟩ = .ok (.int32 v) ∧
      ArgAPI.toFnArg ⟨tag, .vInt64 v⟩ = .ok (.int32 (wrap32 v)) ∧
      ArgAPI.toFnArg ⟨tag, .vFloat32 q⟩ = .ok (.int32 (wrap32 (truncRat q))) ∧
      ArgAPI.toFnArg ⟨tag, .vFloat64 q⟩ = .ok (.int32 (wrap32 (truncRat q)))) ∧
    (strToLower tag = "int64" →
      ArgAPI.toFnArg ⟨tag, .vInt32 v⟩ = .ok (.int64 v) ∧
      ArgAPI.toFnArg ⟨tag, .vInt64 v⟩ = .ok (.int64 v) ∧
      ArgAPI.toFnArg ⟨tag, .vFloat32 q⟩ = .ok (.int64 (wrap64 (truncRat q))) ∧
      ArgAPI.toFnArg ⟨tag, .vFloat64 q⟩ = .ok (.int64 (wrap64 (truncRat q)))) ∧
    ArgAPI.toFnArg ⟨"int32", .vFloat64 q39⟩ = .ok (.int32 3) := by
  refine ⟨fun h => ?_, fun h => ?_, by decide⟩
  · simp [ArgAPI.toFnArg, h]
  · simp [ArgAPI.toFnArg, h]

/-- C1 witness: a mixed-case tag `InT32` converts an `int64` raw value. -/
theorem toFnArg_numeric_conversions_witness :
    ArgAPI.toFnArg ⟨"InT32", .vInt64 7⟩ = .ok (.int32 (wrap32 7)) :=
  ((toFnArg_numeric_conversions "InT32" 7 0).1 (by decide)).2.1

/-- C2: whenever `Invoke` or `CreateContract` returns an error, the VM state
(mempool and block-ready notification count) is left exactly as it was:
pool admission is all-or-nothing per call. -/
theorem submission_failure_leaves_pool_unmodified (env : Env) (st : VMState)
    (iargs : InvokeArgs) (cargs : CreateContractArgs) :
    (∀ e, (Service.Invoke env st iargs).1 = .error e →
      (Service.Invoke env st iargs).2 = st) ∧
    (∀ e, (Service.CreateContract env st cargs).1 = .error e →
      (Service.CreateContract env st cargs).2 = st) :=
  ⟨fun _ h => Invoke_error_snd h, fun _ h => CreateContract_error_snd h⟩

/-- C2 witness: a key-parse failure leaves the empty state untouched. -/
theorem submission_failure_leaves_pool_unmodified_witness :
    (Service.Invoke envBadKey st0 req0).2 = st0 :=
  (submission_failure_leaves_pool_unmodified envBadKey st0 req0 ⟨[], []⟩).1
    (.keyError "couldn't parse 'privateKey' to a SECP256K1R private key: bad key bytes")
    (by decide)

/-- C3: on success, `Invoke` (and likewise `CreateContract`) appends the
built transaction as the new last element of the mempool, preserving all
earlier entries in order, bumps the block-ready notification count by
exactly one, and returns that transaction's `ID()`. -/
theorem submission_success_appends_and_notifies (env : Env) (st : VMState)
    (iargs : InvokeArgs) (cargs : CreateContractArgs) :
    (∀ txid, (Service.Invoke env st iargs).1 = .ok txid →
      ∃ tx : Tx, txid = tx.id ∧
        (Service.Invoke env st iargs).2.mempool = st.mempool ++ [tx] ∧
        (Service.Invoke env st iargs).2.notifyCount = st.notifyCount + 1) ∧
    (∀ txid, (Service.CreateContract env st cargs).1 = .ok txid →
      ∃ tx : Tx, txid = tx.id ∧
        (Service.CreateContract env st cargs).2.mempool = st.mempool ++ [tx] ∧
        (Service.CreateContract env st cargs).2.notifyCount = st.notifyCount + 1) :=
  ⟨fun _ h => Invoke_ok_spec h, fun _ h => CreateContract_ok_spec h⟩

/-- C3 witness: a successful `Invoke` against the all-succeeding test
environment appends one transaction and signals once. -/
theorem submission_success_appends_and_notifies_witness :
    ∃ tx : Tx, (7 : TxID) = tx.id ∧
      (Service.Invoke envOk st0 req0).2.mempool = st0.mempool ++ [tx] ∧
      (Service.Invoke envOk st0 req0).2.notifyCount = st0.notifyCount + 1 :=
  (submission_success_appends_and_notifies envOk st0 req0 ⟨[], []⟩).1 7
    (by decide)

/-- C4: `Invoke` fails with a validation error precisely when the request's
contractID equals the all-zero sentinel or its function string is empty —
for every environment and every argument list, so validation precedes
argument coercion and key parsing: a request with an empty function and a
malformed argument list still fails with the validation error. -/
theorem Invoke_validationError_iff (env : Env) (st : VMState)
    (args : InvokeArgs) :
    (∃ m, (Service.Invoke env st args).1 = .error (.validationError m)) ↔
      (args.ContractID = ID.empty ∨ args.Function = "") := by
  constructor
  · rintro ⟨m, hm⟩
    by_contra hcon
    push_neg at hcon
    have hv : args.validate = .ok () := by
      unfold InvokeArgs.validate
      simp [hcon.1, hcon.2]
    unfold Service.Invoke at hm
    simp only [hv] at hm
    rcases hc : coerceArgs args.Args with ec | fnArgs
    · obtain ⟨a, m', hshape⟩ := coerceArgs_error_shape hc
      rw [hshape] at hc
      simp [hc] at hm
    · simp only [hc] at hm
      rcases hk : env.toPrivateKey args.PrivateKey with ek | key
      · simp [hk] at hm
      · simp only [hk] at hm
        rcases ht : env.newInvokeTx args.ContractID args.Function fnArgs
            args.ByteArgs key with et | tx
        · simp [ht] at hm
        · simp [ht] at hm
  · intro h
    by_cases hcid : args.ContractID = ID.empty
    · refine ⟨"arguments failed validation: contractID not specified", ?_⟩
      have hv : args.validate = .error "contractID not specified" := by
        unfold InvokeArgs.validate
        simp [hcid]
      unfold Service.Invoke
      simp [hv]
    · have hf : args.Function = "" := h.resolve_left hcid
      refine ⟨"arguments failed validation: function not specified", ?_⟩
      have hv : args.validate = .error "function not specified" := by
        unfold InvokeArgs.validate
        simp [hcid, hf]
      unfold Service.Invoke
      simp [hv]

/-- C4 witness: an empty function with a malformed argument list yields the
validation error, not an argument error. -/
theorem Invoke_validationError_iff_witness :
    ∃ m, (Service.Invoke envOk st0
      { ContractID := cid1, Function := "", PrivateKey := [1],
        Args := [⟨"bool", .vOther "junk"⟩], ByteArgs := [] }).1 =
      .error (.validationError m) :=
  (Invoke_validationError_iff envOk st0
    { ContractID := cid1, Function := "", PrivateKey := [1],
      Args := [⟨"bool", .vOther "junk"⟩], ByteArgs := [] }).mpr (Or.inr rfl)

/-- C5 (amended): argument coercion in `Invoke` is fail-fast and in order —
on the first non-coercible element the call aborts with an argument error
carrying the offending argument (its declared type and value, not its
index), the state is unmodified, and the result is independent of every
argument after the failing one. -/
theorem Invoke_failfast_first_arg_error (env : Env) (st : VMState)
    (args : InvokeArgs) (pre : List ArgAPI) (a : ArgAPI) (suf : List ArgAPI)
    (e : String)
    (hargs : args.Args = pre ++ a :: suf)
    (hpre : ∀ x ∈ pre, ∃ f, x.toFnArg = .ok f)
    (ha : a.toFnArg = .error e)
    (hval : args.validate = .ok ()) :
    Service.Invoke env st args = (.error (.argumentError a e), st) ∧
    ∀ suf', Service.Invoke env st { args with Args := pre ++ a :: suf' } =
      (.error (.argumentError a e), st) := by
  have hmain : ∀ suf',
      Service.Invoke env st { args with Args := pre ++ a :: suf' } =
        (.error (.argumentError a e), st) := by
    intro suf'
    have hv' : ({ args with Args := pre ++ a :: suf' } : InvokeArgs).validate
        = .ok () := by
      unfold InvokeArgs.validate at hval ⊢
      simpa using hval
    have hc := coerceArgs_first_error suf' hpre ha
    unfold Service.Invoke
    simp [hv', hc]
  refine ⟨?_, hmain⟩
  have h := hmain suf
  rw [← hargs] at h
  exact h

/-- C5 witness: with args `[("int32", 5), ("int64", "bad")]` the call fails
on argument 1 and the state is untouched. -/
theorem Invoke_failfast_first_arg_error_witness :
    Service.Invoke envOk st0
      { ContractID := cid1, Function := "f", PrivateKey := [1],
        Args := [⟨"int32", .vInt32 5⟩, ⟨"int64", .vOther "bad"⟩],
        ByteArgs := [] } =
      (.error (.argumentError ⟨"int64", .vOther "bad"⟩
        "value 'bad' is not convertible to int64"), st0) :=
  (Invoke_failfast_first_arg_error envOk st0
    { ContractID := cid1, Function := "f", PrivateKey := [1],
      Args := [⟨"int32", .vInt32 5⟩, ⟨"int64", .vOther "bad"⟩],
      ByteArgs := [] }
    [⟨"int32", .vInt32 5⟩] ⟨"int64", .vOther "bad"⟩ [] _ rfl
    (by intro x hx
        simp at hx
        subst hx
        exact ⟨.int32 5, by decide⟩)
    (by decide) (by decide)).1

/-- C5 counterexample: the argument error does not identify the offending
argument's position — a request failing at index 0 and a request failing at
index 1 (its index-0 argument being coercible) return the very same error. -/
theorem Invoke_argumentError_lacks_position :
    (Service.Invoke envOk st0
      { ContractID := cid1, Function := "f", PrivateKey := [1],
        Args := [⟨"int32", .vOther "x"⟩], ByteArgs := [] }).1 =
    (Service.Invoke envOk st0
      { ContractID := cid1, Function := "f", PrivateKey := [1],
        Args := [⟨"int32", .vInt32 5⟩, ⟨"int32", .vOther "x"⟩],
        ByteArgs := [] }).1 ∧
    ArgAPI.toFnArg ⟨"int32", .vInt32 5⟩ = .ok (.int32 5) ∧
    ArgAPI.toFnArg ⟨"int32", .vOther "x"⟩ =
      .error "value 'x' is not convertible to int32" :=
  ⟨by decide, by decide, by decide⟩

/-- C6: a type tag other than int32/int64 (case-insensitively) fails with
the unsupported-type message for every raw value; a supported tag with a
non-numeric raw value fails with the not-convertible message carrying the
original value. -/
theorem toFnArg_unsupported_and_not_convertible (tag : String) (v : RawValue)
    (s : String) :
    (strToLower tag ≠ "int32" → strToLower tag ≠ "int64" →
      ArgAPI.toFnArg ⟨tag, v⟩ = .error "arg type must be one of: int32, int64") ∧
    (strToLower tag = "int32" →
      ArgAPI.toFnArg ⟨tag, .vOther s⟩ =
        .error ("value '" ++ s ++ "' is not convertible to int32")) ∧
    (strToLower tag = "int64" →
      ArgAPI.toFnArg ⟨tag, .vOther s⟩ =
        .error ("value '" ++ s ++ "' is not convertible to int64")) := by
  refine ⟨fun h1 h2 => ?_, fun h => ?_, fun h => ?_⟩
  · simp [ArgAPI.toFnArg, h1, h2]
  · simp [ArgAPI.toFnArg, h]
  · simp [ArgAPI.toFnArg, h]

/-- C6 witness: tag `string` is unsupported whatever the value. -/
theorem toFnArg_unsupported_witness :
    ArgAPI.toFnArg ⟨"string", .vOther "x"⟩ =
      .error "arg type must be one of: int32, int64" :=
  (toFnArg_unsupported_and_not_convertible "string" (.vOther "x") "x").1
    (by decide) (by decide)

/-- C7: with the spec-modelled contract-creation builder (which enforces the
sole structural invariant, non-empty contract bytes), a `CreateContract`
call whose contract bytes are empty fails and leaves the state unmodified. -/
theorem CreateContract_empty_bytes_fails (env : Env) (st : VMState)
    (args : CreateContractArgs)
    (henv : env.newCreateContractTx = newCreateContractTxSpec)
    (hempty : args.Contract = []) :
    (∃ e, (Service.CreateContract env st args).1 = .error e) ∧
    (Service.CreateContract env st args).2 = st := by
  unfold Service.CreateContract
  rcases hk : env.toPrivateKey args.PrivateKey with ek | key
  · simp [hk]
  · have hb : env.newCreateContractTx args.Contract key =
        .error "contract is empty" := by
      rw [henv, hempty]
      rfl
    simp [hk, hb]

/-- C7 witness: empty contract bytes are rejected concretely. -/
theorem CreateContract_empty_bytes_fails_witness :
    (∃ e, (Service.CreateContract
      { envOk with newCreateContractTx := newCreateContractTxSpec }
      st0 ⟨[], [1]⟩).1 = .error e) ∧
    (Service.CreateContract
      { envOk with newCreateContractTx := newCreateContractTxSpec }
      st0 ⟨[], [1]⟩).2 = st0 :=
  CreateContract_empty_bytes_fails
    { envOk with newCreateContractTx := newCreateContractTxSpec }
    st0 ⟨[], [1]⟩ rfl rfl

/-- C8: `GetTx` returns the stored record when the external store holds one
and fails with `couldn't find tx with ID <id>` when it does not; its result
does not depend on the VM state and the state (hence the mempool) is
returned unchanged. -/
theorem GetTx_lookup (env : Env) (st st' : VMState) (args : GetTxArgs) :
    (∀ tx, env.getTx args.id = .ok tx →
      Service.GetTx env st args = (.ok tx, st)) ∧
    (∀ e, env.getTx args.id = .error e →
      Service.GetTx env st args =
        (.error ("couldn't find tx with ID " ++ toString args.id), st)) ∧
    (Service.GetTx env st args).1 = (Service.GetTx env st' args).1 ∧
    (Service.GetTx env st args).2 = st := by
  refine ⟨?_, ?_, ?_, ?_⟩
  · intro tx h
    unfold Service.GetTx
    simp [h]
  · intro e h
    unfold Service.GetTx
    simp [h]
  · unfold Service.GetTx
    rcases h : env.getTx args.id with e | tx <;> simp [h]
  · unfold Service.GetTx
    rcases h : env.getTx args.id with e | tx <;> simp [h]

/-- C8 witness: looking up an identifier the store does not hold yields the
not-found message. -/
theorem GetTx_lookup_witness :
    Service.GetTx envOk st0 ⟨6⟩ =
      (.error ("couldn't find tx with ID " ++ toString (6 : TxID)), st0) :=
  (GetTx_lookup envOk st0 st0 ⟨6⟩).2.1 "not in db" (by decide)

/-- C9: under the spec-modelled chain-lock serialization, any schedule of
concurrent `Invoke`/`CreateContract` calls grows the mempool by exactly one
entry per successful call — the earlier entries preserved as a prefix, no
lost or partial writes — and emits exactly one block-ready notification per
successful call. -/
theorem runSerialized_admission (env : Env) (st : VMState)
    (calls : List Call) :
    ∃ newTxs : List Tx,
      (runSerialized env st calls).mempool = st.mempool ++ newTxs ∧
      newTxs.length = (calls.filter (callOk env)).length ∧
      (runSerialized env st calls).notifyCount =
        st.notifyCount + (calls.filter (callOk env)).length := by
  induction calls generalizing st with
  | nil => exact ⟨[], by simp [runSerialized], by simp, by simp [runSerialized]⟩
  | cons c rest ih =>
    obtain ⟨txs, hmem, hlen, hnot⟩ := ih (runCall env st c).2
    rcases hres : (runCall env st c).1 with e | t
    · have hok : callOk env c = false := by
        unfold callOk
        rw [runCall_fst_state_indep env c ⟨[], 0⟩ st, hres]
      have hsnd : (runCall env st c).2 = st := runCall_error_snd hres
      rw [hsnd] at hmem hnot
      refine ⟨txs, ?_, ?_, ?_⟩
      · simp only [runSerialized, hsnd]
        exact hmem
      · simpa [List.filter_cons, hok] using hlen
      · simp only [runSerialized, hsnd]
        rw [hnot]
        simp [List.filter_cons, hok]
    · have hok : callOk env c = true := by
        unfold callOk
        rw [runCall_fst_state_indep env c ⟨[], 0⟩ st, hres]
      obtain ⟨tx, hm1, hn1⟩ := runCall_ok_snd hres
      rw [hm1] at hmem
      rw [hn1] at hnot
      refine ⟨tx :: txs, ?_, ?_, ?_⟩
      · simp only [runSerialized]
        rw [hmem]
        simp
      · simp [List.filter_cons, hok, hlen]
      · simp only [runSerialized]
        rw [hnot]
        simp [List.filter_cons, hok]
        omega

/-- C10: the signing key is parsed only after every argument has coerced:
a request that passes validation but contains a non-coercible argument
returns the argument-coercion error even when the signing key is malformed
too — never the key error. -/
theorem Invoke_key_parsed_after_args (env : Env) (st : VMState)
    (args : InvokeArgs) (e : SvcErr) (m : String)
    (hval : args.validate = .ok ())
    (hargs : coerceArgs args.Args = .error e)
    (_hkey : env.toPrivateKey args.PrivateKey = .error m) :
    (Service.Invoke env st args).1 = .error e ∧
    ∃ a s, e = .argumentError a s := by
  refine ⟨?_, coerceArgs_error_shape hargs⟩
  unfold Service.Invoke
  simp [hval, hargs]

/-- C10 witness: a bad argument together with a key parser that rejects
everything still yields the argument error. -/
theorem Invoke_key_parsed_after_args_witness :
    (Service.Invoke envBadKey st0
      { ContractID := cid1, Function := "g", PrivateKey := [9],
        Args := [⟨"int64", .vOther "bad"⟩], ByteArgs := [] }).1 =
      .error (.argumentError ⟨"int64", .vOther "bad"⟩
        "value 'bad' is not convertible to int64") :=
  (Invoke_key_parsed_after_args envBadKey st0
    { ContractID := cid1, Function := "g", PrivateKey := [9],
      Args := [⟨"int64", .vOther "bad"⟩], ByteArgs := [] }
    (.argumentError ⟨"int64", .vOther "bad"⟩
      "value 'bad' is not convertible to int64")
    "bad key bytes" (by decide) (by decide) (by decide)).1

end Wasmvm
